import Mathlib

/-!
Shallow embedding of the resilient fetch/aggregation core of the
noexplorer repository, together with proofs about its claimed behaviour.

Embedded components (with the source files they are translated from):
* error values and retry classification      — src/unnamed/part_012 (errors)
                                               and src/unnamed/part_016 (`shouldRetry`)
* `CircuitBreaker`                           — src/unnamed/part_012 (`canExecute`,
                                               `recordSuccess`, `recordFailure`)
* `RequestQueue`                             — src/unnamed/part_016 (`executeRequest`,
                                               the queue-timeout check of `processQueue`,
                                               `findInsertIndex`, the retry `unshift`)
* `SearchAPI.search` aggregation pipeline    — src/src/lib/api/search.ts (first version
                                               in the file; the claims cite its lines)
* `TrafficObfuscator.generateRandomDelay`    — src/src/lib/privacy/trafficObfuscation.ts

Modelling conventions:
* JS `Date.now()` timestamps are `Int`; JS numbers used as counters are `Nat`;
  JS numbers combined with `Math.random()` are `ℚ` (exact), and the delay
  distributions of the obfuscator, which use `Math.log`/`Math.sqrt`/`Math.cos`,
  are modelled over `ℝ`.
* `Math.random()` draws are explicit parameters constrained to `[0, 1)`.
* Promise resolution/rejection is a sum type (`ExecOutcome`, `Except`): code
  that throws out of an `async` function is a rejected promise, modelled as an
  `error` value.
* Mutation of per-endpoint stats, of the queue array and of the result cache is
  explicit state passing.
* JS built-in string functions (`trim`, `toLowerCase`, `includes`,
  `startsWith`, `new URL(u).hostname`) are modelled by executable helpers over
  `List Char` so that concrete instances reduce in the kernel.
-/

namespace NoExplorer

/-! ### JS string helpers -/

/-- JS `String.prototype.trim`: strip whitespace from both ends. -/
def jsTrim (s : String) : String :=
  ⟨((s.data.dropWhile Char.isWhitespace).reverse.dropWhile Char.isWhitespace).reverse⟩

/-- JS `String.prototype.toLowerCase` (ASCII case fold, which is all the code
compares). -/
def strToLower (s : String) : String := ⟨s.data.map Char.toLower⟩

/-- Substring test on character lists, used to model JS `String.prototype.includes`. -/
def containsSub (pat : List Char) : List Char → Bool
  | [] => pat.isEmpty
  | c :: t => List.isPrefixOf pat (c :: t) || containsSub pat t

/-- JS `s.includes(pat)`. -/
def strIncludes (s pat : String) : Bool := containsSub pat.data s.data

/-- JS `s.startsWith(pre)`. -/
def strStartsWith (s pre : String) : Bool := List.isPrefixOf pre.data s.data

/-! ### Error values — src/unnamed/part_012

JS `Error` objects are modelled by their `name` and `message`; `new Error(msg)`
has name `"Error"`, and each `APIError` subclass sets its own `name`. -/

structure ErrorValue where
  name : String
  message : String
deriving DecidableEq

/-- `new Error(msg)` — a plain JS error. -/
def plainError (msg : String) : ErrorValue := ⟨"Error", msg⟩

/-- `new TimeoutError(msg)` from part_012 lines 43-48: sets `this.name = 'TimeoutError'`. -/
def mkTimeoutError (msg : String) : ErrorValue := ⟨"TimeoutError", msg⟩

/-! ### CircuitBreaker — src/unnamed/part_012 lines 267-420 -/

structure CircuitBreakerConfig where
  failureThreshold : Nat
  recoveryTimeMs : Int
  monitoringPeriodMs : Int
deriving DecidableEq

inductive CBState where
  | closed
  | «open»
  | halfOpen
deriving DecidableEq

structure EndpointStats where
  failures : Nat
  successes : Nat
  lastFailureTime : Int
  lastSuccessTime : Int
  state : CBState
deriving DecidableEq

/-- The stats lazily created by `getEndpointStats` for a fresh endpoint. -/
def initialEndpointStats : EndpointStats :=
  { failures := 0, successes := 0, lastFailureTime := 0, lastSuccessTime := 0,
    state := .closed }

/-- `CircuitBreaker.canExecute` (part_012 lines 294-316).  Returns the boolean
result together with the (possibly mutated) stats: the `open` case flips the
state to `half-open` in place when the recovery time has elapsed. -/
def canExecute (cfg : CircuitBreakerConfig) (stats : EndpointStats) (now : Int) :
    Bool × EndpointStats :=
  match stats.state with
  | .closed => (true, stats)
  | .«open» =>
      if cfg.recoveryTimeMs ≤ now - stats.lastFailureTime then
        (true, { stats with state := .halfOpen })
      else
        (false, stats)
  | .halfOpen => (true, stats)

/-- `CircuitBreaker.recordSuccess` (part_012 lines 319-331). -/
def recordSuccess (cfg : CircuitBreakerConfig) (stats : EndpointStats) (now : Int) :
    EndpointStats :=
  let s1 := { stats with successes := stats.successes + 1, lastSuccessTime := now }
  if s1.state = .halfOpen then
    { s1 with state := .closed, failures := 0 }
  else
    s1

/-- `CircuitBreaker.recordFailure` (part_012 lines 334-348). -/
def recordFailure (cfg : CircuitBreakerConfig) (stats : EndpointStats) (now : Int) :
    EndpointStats :=
  let s1 := { stats with failures := stats.failures + 1, lastFailureTime := now }
  if cfg.failureThreshold ≤ s1.failures then
    { s1 with state := .«open» }
  else if s1.state = .halfOpen then
    { s1 with state := .«open» }
  else
    s1

/-- A sequence of `recordFailure` calls at the given timestamps. -/
def applyFailures (cfg : CircuitBreakerConfig) (stats : EndpointStats) :
    List Int → EndpointStats
  | [] => stats
  | t :: ts => applyFailures cfg (recordFailure cfg stats t) ts

/-! ### RequestQueue — src/unnamed/part_016 -/

inductive Priority where
  | low
  | normal
  | high
deriving DecidableEq

/-- The `priorityOrder` table of `findInsertIndex` (part_016 line 198). -/
def priorityOrder : Priority → Nat
  | .high => 3
  | .normal => 2
  | .low => 1

/-- `QueuedRequest` (part_016 lines 4-13).  The `resolve`/`reject`
continuations and the `RequestInit` options carry no queue-relevant data and
are omitted; settling a promise is modelled by the `ExecOutcome` below. -/
structure QueuedRequest where
  id : String
  url : String
  retryCount : Nat
  createdAt : Int
  priority : Priority
deriving DecidableEq

structure RateLimitConfig where
  maxRequestsPerSecond : Nat
  maxConcurrentRequests : Nat
  maxRetries : Nat
  baseDelayMs : Nat
  maxDelayMs : Nat
  timeoutMs : Int
deriving DecidableEq

/-- `RequestQueue.findInsertIndex` (part_016 lines 197-207): the first index
whose queued priority is strictly below the new request's priority, else the
queue length — i.e. the back of the request's own priority tier. -/
def findInsertIndex : List QueuedRequest → Priority → Nat
  | [], _ => 0
  | q :: rest, p =>
      if priorityOrder q.priority < priorityOrder p then 0
      else findInsertIndex rest p + 1

/-- `RequestQueue.shouldRetry` (part_016 lines 175-194). -/
def shouldRetry (e : ErrorValue) : Bool :=
  let message := strToLower e.message
  if strIncludes message "cors" || strIncludes message "cross-origin" ||
      strIncludes message "http 4" || strIncludes message "forbidden" then
    false
  else
    strIncludes message "network" || strIncludes message "timeout" ||
      strIncludes message "fetch" || strIncludes message "http 5" ||
      strIncludes message "http 429"

/-- What the `fetch` inside `executeRequest` would produce, were it invoked:
an ok response with a parsed JSON body (abstracted to `Nat`), a non-2xx
response, or a thrown transport error. -/
inductive FetchOutcome where
  | ok (data : Nat)
  | httpError (status : Nat) (statusText : String)
  | thrown (e : ErrorValue)
deriving DecidableEq

/-- How `executeRequest` settles the request: resolve the caller's promise,
reject it, or re-queue the request (with incremented `retryCount`) after the
given backoff delay in milliseconds. -/
inductive ExecOutcome where
  | resolved (data : Nat)
  | rejected (e : ErrorValue)
  | retried (req : QueuedRequest) (totalDelayMs : ℚ)
deriving DecidableEq

/-- The error thrown when the circuit is open (part_016 line 123):
`new Error('Circuit breaker is open for this endpoint')`. -/
def circuitOpenError : ErrorValue :=
  plainError "Circuit breaker is open for this endpoint"

/-- The catch-block of `executeRequest` (part_016 lines 138-163), after
`recordFailure` has run: decide between re-queue with exponential backoff and
immediate rejection.  `r` is the `Math.random()` draw for the jitter. -/
def handleFailure (cfg : RateLimitConfig) (req : QueuedRequest) (e : ErrorValue)
    (r : ℚ) : ExecOutcome :=
  if decide (req.retryCount < cfg.maxRetries) && shouldRetry e then
    let retryCount := req.retryCount + 1
    let delay : Nat := Nat.min (cfg.baseDelayMs * 2 ^ (retryCount - 1)) cfg.maxDelayMs
    let jitter : ℚ := r * (1 / 10) * (delay : ℚ)
    .retried { req with retryCount := retryCount } ((delay : ℚ) + jitter)
  else
    .rejected e

/-- `RequestQueue.executeRequest` (part_016 lines 116-172) for a single
request, given the circuit-breaker stats of its endpoint: check the breaker,
then either perform the fetch (outcome supplied as `fetch`) or throw the
circuit-open error; a success records a success, every failure records a failure
and runs the retry decision.  Returns the settlement outcome and the updated
endpoint stats. -/
def executeRequest (cfg : RateLimitConfig) (cbCfg : CircuitBreakerConfig)
    (cb : EndpointStats) (req : QueuedRequest) (now : Int) (fetch : FetchOutcome)
    (r : ℚ) : ExecOutcome × EndpointStats :=
  match canExecute cbCfg cb now with
  | (false, cb1) =>
      (handleFailure cfg req circuitOpenError r, recordFailure cbCfg cb1 now)
  | (true, cb1) =>
      match fetch with
      | .ok d => (.resolved d, recordSuccess cbCfg cb1 now)
      | .httpError status statusText =>
          let e := plainError ("HTTP " ++ toString status ++ ": " ++ statusText)
          (handleFailure cfg req e r, recordFailure cbCfg cb1 now)
      | .thrown e => (handleFailure cfg req e r, recordFailure cbCfg cb1 now)

/-- The re-queueing performed by the retry timer (part_016 line 156):
`this.queue.unshift(request)` — the retried request goes to the absolute front
of the whole queue. -/
def requeueRetried (req : QueuedRequest) (queue : List QueuedRequest) :
    List QueuedRequest := req :: queue

/-- What `processQueue` does with one dequeued request (part_016 lines 97-109):
evict it with `new Error('Request timeout in queue')` when its time in queue
exceeds `timeoutMs`, otherwise dispatch it (`executeRequest`, the only path on
which `fetch` is invoked). -/
inductive DequeueAction where
  | evict (e : ErrorValue)
  | dispatch
deriving DecidableEq

def dequeueStep (cfg : RateLimitConfig) (req : QueuedRequest) (now : Int) :
    DequeueAction :=
  if cfg.timeoutMs < now - req.createdAt then
    .evict (plainError "Request timeout in queue")
  else
    .dispatch

/-! ### SearchAPI — src/src/lib/api/search.ts (first version in the file)

`SearchResult` keeps the fields the aggregation pipeline reads; `timestamp`
(`new Date()`) and `type` (constant `'web'`) carry no information and are
omitted; of the metadata only `source` is read (by the ranking comparator). -/

structure SearchResult where
  id : String
  title : String
  url : String
  snippet : String
  domain : String
  relevance : ℚ
  source : String
deriving DecidableEq

/-- A raw provider result, with the fields the transformation at search.ts
lines 178-302 reads.  The provider payloads the aggregator actually receives
carry these fields as plain strings, on which `extractText` is the identity,
so the `extractText` fallback chain collapses to direct field access; the
`title || name || heading` and `extract || snippet || description || content`
fallback chains are collapsed into the single field that is present.
`_source` is the tag added by the endpoint loop (line 155). -/
structure RawResult where
  url : String
  title : String
  snippet : String
  score : Option ℚ
  rank : Option ℚ
  source : String
deriving DecidableEq

/-- JS `x || y` on an optional number: `undefined` and `0` are falsy. -/
def jsOrFalsy (x : Option ℚ) (y : ℚ) : ℚ :=
  match x with
  | some v => if v = 0 then y else v
  | none => y

/-- `new URL(url).hostname`, modelled for plain `scheme://host/…` URLs:
strip the `http(s)://` scheme and keep the characters up to the first
`/`, `?`, `#` or `:`. -/
def hostnameOf (url : String) : String :=
  let rest :=
    if List.isPrefixOf "https://".data url.data then url.data.drop 8
    else if List.isPrefixOf "http://".data url.data then url.data.drop 7
    else url.data
  ⟨rest.takeWhile (fun c => !(c = '/' || c = '?' || c = '#' || c = ':'))⟩

/-- The per-result transformation (search.ts lines 178-293) for the result at
position `index`, with `r` the `Math.random()` relevance fallback draw.
Thumbnail extraction (lines 227-262) only fills the cosmetic `thumbnail`
field and is omitted. -/
def transformResult (raw : RawResult) (index : Nat) (r : ℚ) : SearchResult :=
  let title := if raw.title = "" then "Untitled" else raw.title
  let url := raw.url
  let snippet := raw.snippet
  let domain :=
    if url ≠ "" && strStartsWith url "http" then hostnameOf url else "unknown"
  let source :=
    if strToLower raw.source = "" then "unknown" else strToLower raw.source
  { id := source ++ "-" ++ url ++ "-" ++ toString index
  , title := title
  , url := url
  , snippet := snippet
  , domain := domain
  , relevance := jsOrFalsy raw.score (jsOrFalsy raw.rank r)
  , source := source }

/-- The filter after the transformation (search.ts lines 294-302): keep only
results with an absolute URL and without unresolved `[object Object]` text. -/
def keepResult (res : SearchResult) : Bool :=
  strStartsWith res.url "http" &&
    !(strIncludes res.title "[object Object]") &&
    !(strIncludes res.snippet "[object Object]")

/-- Transform-and-filter over the collected raw results, `rand i` being the
`Math.random()` draw for the result at position `i`. -/
def transformAll (raws : List RawResult) (rand : Nat → ℚ) : List SearchResult :=
  ((raws.enum).map (fun p => transformResult p.2 p.1 (rand p.1))).filter keepResult

/-- The endpoint loop of `search` (search.ts lines 117-170): walk the
endpoints in order, remember the last error, push the results of a succeeding
endpoint and stop at the first endpoint that yields a non-empty result list.
Returns the accumulated raw results and the last error seen. -/
def collectLoop (acc : List RawResult) (lastError : Option ErrorValue) :
    List (Except ErrorValue (List RawResult)) →
    List RawResult × Option ErrorValue
  | [] => (acc, lastError)
  | .error e :: rest => collectLoop acc (some e) rest
  | .ok rs :: rest =>
      if rs.isEmpty then collectLoop (acc ++ rs) lastError rest
      else (acc ++ rs, lastError)

/-- The wiki test of the ranking comparator (search.ts lines 436-437). -/
def isWikiResult (res : SearchResult) : Bool :=
  strIncludes res.domain "wikipedia" || strIncludes res.url "wikipedia"

/-- The diverse-source test of the ranking comparator (lines 443-444). -/
def isDiverseSource (res : SearchResult) : Bool :=
  ["duckduckgo", "brave", "startpage"].contains res.source

/-- The comparator passed to `results.sort` (search.ts lines 434-451):
non-wiki before wiki, then diverse sources first, then descending relevance. -/
def cmpResults (a b : SearchResult) : ℚ :=
  if isWikiResult a && !(isWikiResult b) then 1
  else if !(isWikiResult a) && isWikiResult b then -1
  else if isDiverseSource a && !(isDiverseSource b) then -1
  else if !(isDiverseSource a) && isDiverseSource b then 1
  else b.relevance - a.relevance

/-- `Array.prototype.sort` with `cmpResults` — a stable comparator sort,
modelled by `List.mergeSort` with `le a b ↔ cmpResults a b ≤ 0`. -/
def rankResults (results : List SearchResult) : List SearchResult :=
  results.mergeSort (fun a b => decide (cmpResults a b ≤ 0))

/-- The JS `Set.has` on the `seenUrls` set of URL strings. -/
def urlSeen : List String → String → Bool
  | [], _ => false
  | u :: rest, v => if u = v then true else urlSeen rest v

/-- The JS `Map.get(d) || 0` on the `seenDomains` map, the map being an
association list where `Map.set` is a shadowing cons. -/
def domCount : List (String × Nat) → String → Nat
  | [], _ => 0
  | (d, n) :: rest, v => if d = v then n else domCount rest v

/-- The per-domain cap (search.ts line 461): 2 for domains containing
`wikipedia`, else 3. -/
def domainCap (d : String) : Nat := if strIncludes d "wikipedia" then 2 else 3

/-- `maxPerDomain` for a result (line 461). -/
def maxPerDomain (res : SearchResult) : Nat := domainCap res.domain

/-- The dedup/diversity loop of `deduplicateAndImproveResults`
(search.ts lines 453-470). -/
def dedupLoop (seenUrls : List String) (seenDomains : List (String × Nat)) :
    List SearchResult → List SearchResult
  | [] => []
  | res :: rest =>
      if urlSeen seenUrls res.url then dedupLoop seenUrls seenDomains rest
      else if maxPerDomain res ≤ domCount seenDomains res.domain then
        dedupLoop seenUrls seenDomains rest
      else
        res :: dedupLoop (res.url :: seenUrls)
          ((res.domain, domCount seenDomains res.domain + 1) :: seenDomains) rest

/-- `SearchAPI.deduplicateAndImproveResults` (search.ts lines 428-473). -/
def deduplicateAndImproveResults (results : List SearchResult) :
    List SearchResult :=
  dedupLoop [] [] (rankResults results)

/-- `SearchResponse` with the fields `search` fills (search.ts lines 80-88,
311-319, 335-345); `error` is the non-fatal annotation of the failure path. -/
structure SearchResponse where
  results : List SearchResult
  totalCount : Nat
  page : Nat
  hasMore : Bool
  searchTime : Nat
  suggestions : List String
  query : String
  error : Option String
deriving DecidableEq

/-- The pagination slice shared by the cached branch (lines 76-88) and the
fresh branch (lines 307-319): `startIndex = (page-1)*limit`,
`endIndex = startIndex + limit`, `slice`, `hasMore = endIndex < totalCount`. -/
def pagedResponse (allResults : List SearchResult) (page limit : Nat)
    (q : String) : SearchResponse :=
  { results := (allResults.drop ((page - 1) * limit)).take limit
  , totalCount := allResults.length
  , page := page
  , hasMore := decide ((page - 1) * limit + limit < allResults.length)
  , searchTime := 0
  , suggestions := []
  , query := q
  , error := none }

/-- The catch-branch response (search.ts lines 335-345). -/
def emptyResponse (page : Nat) (q : String) (msg : String) : SearchResponse :=
  { results := [], totalCount := 0, page := page, hasMore := false,
    searchTime := 0, suggestions := [], query := q, error := some msg }

/-- The deduplicated result set the fresh path builds and caches
(search.ts lines 304-305). -/
def freshResults (fetches : List (Except ErrorValue (List RawResult)))
    (rand : Nat → ℚ) : List SearchResult :=
  deduplicateAndImproveResults (transformAll (collectLoop [] none fetches).1 rand)

/-- The try/catch body of `search` for a fresh (non-cache-hit) query
(search.ts lines 92-346): collect raw results from the endpoints; if none,
the `throw lastError || new Error('All search endpoints failed')` reaches the
catch, which returns the annotated empty response; otherwise transform,
dedup, cache the set and slice the page.  Returns the response and the result
cache after the call. -/
def searchFresh (query : String) (page limit : Nat)
    (cached : Option (List SearchResult))
    (fetches : List (Except ErrorValue (List RawResult))) (rand : Nat → ℚ) :
    Except ErrorValue SearchResponse × Option (List SearchResult) :=
  let collected := collectLoop [] none fetches
  if collected.1 = [] then
    let e := collected.2.getD (plainError "All search endpoints failed")
    (.ok (emptyResponse page (jsTrim query) e.message), cached)
  else
    let deduped := deduplicateAndImproveResults (transformAll collected.1 rand)
    (.ok (pagedResponse deduped page limit (jsTrim query)), some deduped)

/-- `SearchAPI.search` (search.ts lines 62-347).  `cached` is the
`resultsCache` entry for the normalized query key; `fetches` are the
outcomes the configured endpoints would deliver, in order; `rand` supplies
the `Math.random()` relevance fallbacks.  An `Except.error` result is the
promise rejecting (the function throwing). -/
def search (query : String) (page limit : Nat)
    (cached : Option (List SearchResult))
    (fetches : List (Except ErrorValue (List RawResult))) (rand : Nat → ℚ) :
    Except ErrorValue SearchResponse × Option (List SearchResult) :=
  if jsTrim query = "" then
    (.error (plainError "Search query is required"), cached)
  else
    match cached with
    | some allResults =>
        if 1 < page then
          (.ok (pagedResponse allResults page limit (jsTrim query)), cached)
        else
          searchFresh query page limit (some allResults) fetches rand
    | none => searchFresh query page limit none fetches rand

/-- `Except.isOk` as an executable predicate. -/
def exceptIsOk {ε α : Type} : Except ε α → Bool
  | .ok _ => true
  | .error _ => false

/-- `Except.isError`. -/
def exceptIsError {ε α : Type} : Except ε α → Bool
  | .ok _ => false
  | .error _ => true

/-- A URL determines its domain: true of every list the aggregator actually
deduplicates, since `transformResult` computes `domain` from `url`. -/
def urlDomainConsistent (l : List SearchResult) : Prop :=
  ∀ a ∈ l, ∀ b ∈ l, a.url = b.url → a.domain = b.domain

/-- A concrete result list with a repeated URL, used as dedup test input. -/
def exampleDupResults : List SearchResult :=
  [ { id := "mwmbl-https://example.com/x-0", title := "T1",
      url := "https://example.com/x", snippet := "s1",
      domain := "example.com", relevance := 2, source := "mwmbl" }
  , { id := "mwmbl-https://example.com/x-1", title := "T2",
      url := "https://example.com/x", snippet := "s2",
      domain := "example.com", relevance := 1, source := "mwmbl" } ]

/-- A concrete cached result set with three distinct URLs, used as pagination
test input. -/
def examplePagedResults : List SearchResult :=
  [ { id := "mwmbl-https://a.org/1-0", title := "A",
      url := "https://a.org/1", snippet := "sa",
      domain := "a.org", relevance := 3, source := "mwmbl" }
  , { id := "mwmbl-https://b.org/2-1", title := "B",
      url := "https://b.org/2", snippet := "sb",
      domain := "b.org", relevance := 2, source := "mwmbl" }
  , { id := "mwmbl-https://c.org/3-2", title := "C",
      url := "https://c.org/3", snippet := "sc",
      domain := "c.org", relevance := 1, source := "mwmbl" } ]

/-! ### TrafficObfuscator — src/src/lib/privacy/trafficObfuscation.ts

The delay generators combine `Math.random()` draws with `Math.log`,
`Math.sqrt`, `Math.cos` and `Math.PI`, so they are modelled over `ℝ` with the
draws as explicit parameters. -/

inductive DistributionType where
  | uniform
  | exponential
  | normal
deriving DecidableEq

/-- `TrafficObfuscator.exponentialRandom` (trafficObfuscation.ts lines 98-103). -/
noncomputable def exponentialRandom (minDelay maxDelay u : ℝ) : ℝ :=
  let lambda := 2 / (maxDelay - minDelay)
  let exponential := -Real.log (1 - u) / lambda
  Min.min maxDelay (minDelay + exponential)

/-- `TrafficObfuscator.normalRandom` (trafficObfuscation.ts lines 108-119). -/
noncomputable def normalRandom (minDelay maxDelay u1 u2 : ℝ) : ℝ :=
  let mean := (minDelay + maxDelay) / 2
  let stdDev := (maxDelay - minDelay) / 6
  let z0 := Real.sqrt (-2 * Real.log u1) * Real.cos (2 * Real.pi * u2)
  let normal := mean + stdDev * z0
  Max.max minDelay (Min.min maxDelay normal)

/-- `TrafficObfuscator.generateRandomDelay` (trafficObfuscation.ts lines
81-93), with the one or two `Math.random()` draws passed in as `u1`, `u2`. -/
noncomputable def generateRandomDelay (minDelay maxDelay : ℝ)
    (distributionType : DistributionType) (u1 u2 : ℝ) : ℝ :=
  match distributionType with
  | .exponential => exponentialRandom minDelay maxDelay u1
  | .normal => normalRandom minDelay maxDelay u1 u2
  | .uniform => u1 * (maxDelay - minDelay) + minDelay

/-! ### Helper lemmas: CircuitBreaker -/

theorem recordFailure_failures (cfg : CircuitBreakerConfig) (s : EndpointStats)
    (t : Int) : (recordFailure cfg s t).failures = s.failures + 1 := by
  simp only [recordFailure]
  split
  · rfl
  · split <;> rfl

theorem recordFailure_lastFailureTime (cfg : CircuitBreakerConfig)
    (s : EndpointStats) (t : Int) : (recordFailure cfg s t).lastFailureTime = t := by
  simp only [recordFailure]
  split
  · rfl
  · split <;> rfl

theorem recordFailure_state_of_threshold (cfg : CircuitBreakerConfig)
    (s : EndpointStats) (t : Int) (h : cfg.failureThreshold ≤ s.failures + 1) :
    (recordFailure cfg s t).state = .«open» := by
  unfold recordFailure
  rw [if_pos h]

theorem recordFailure_state_open (cfg : CircuitBreakerConfig) (s : EndpointStats)
    (t : Int) (h : s.state = .«open») : (recordFailure cfg s t).state = .«open» := by
  simp only [recordFailure]
  split
  · rfl
  · split
    · rfl
    · exact h

theorem applyFailures_state_open (cfg : CircuitBreakerConfig) :
    ∀ (ts : List Int) (s : EndpointStats), ts ≠ [] →
      cfg.failureThreshold ≤ s.failures + ts.length →
      (applyFailures cfg s ts).state = .«open» := by
  intro ts
  induction ts with
  | nil => intro s hne _; exact absurd rfl hne
  | cons t ts ih =>
      intro s _ hthr
      show (applyFailures cfg (recordFailure cfg s t) ts).state = .«open»
      cases ts with
      | nil =>
          show (recordFailure cfg s t).state = .«open»
          exact recordFailure_state_of_threshold cfg s t (by simpa using hthr)
      | cons t2 ts2 =>
          refine ih (recordFailure cfg s t) (by simp) ?_
          rw [recordFailure_failures]
          simp only [List.length_cons] at hthr ⊢
          omega

theorem canExecute_closed (cfg : CircuitBreakerConfig) (s : EndpointStats)
    (now : Int) (h : s.state = .closed) : canExecute cfg s now = (true, s) := by
  unfold canExecute
  rw [h]

theorem canExecute_halfOpen (cfg : CircuitBreakerConfig) (s : EndpointStats)
    (now : Int) (h : s.state = .halfOpen) : canExecute cfg s now = (true, s) := by
  unfold canExecute
  rw [h]

theorem canExecute_open_waiting (cfg : CircuitBreakerConfig) (s : EndpointStats)
    (now : Int) (h : s.state = .«open»)
    (hlt : now - s.lastFailureTime < cfg.recoveryTimeMs) :
    canExecute cfg s now = (false, s) := by
  unfold canExecute
  rw [h, if_neg (by omega)]

theorem canExecute_open_elapsed (cfg : CircuitBreakerConfig) (s : EndpointStats)
    (now : Int) (h : s.state = .«open»)
    (hge : cfg.recoveryTimeMs ≤ now - s.lastFailureTime) :
    canExecute cfg s now = (true, { s with state := .halfOpen }) := by
  unfold canExecute
  rw [h, if_pos hge]

/-- `canExecute` answers `false` only in the still-cooling `open` state, and
then leaves the stats untouched. -/
theorem canExecute_false_inv (cfg : CircuitBreakerConfig) (s : EndpointStats)
    (now : Int) (h : (canExecute cfg s now).1 = false) :
    canExecute cfg s now = (false, s) ∧ s.state = .«open» ∧
      now - s.lastFailureTime < cfg.recoveryTimeMs := by
  cases hs : s.state with
  | closed => rw [canExecute_closed cfg s now hs] at h; cases h
  | halfOpen => rw [canExecute_halfOpen cfg s now hs] at h; cases h
  | «open» =>
      by_cases hge : cfg.recoveryTimeMs ≤ now - s.lastFailureTime
      · rw [canExecute_open_elapsed cfg s now hs hge] at h; cases h
      · exact ⟨canExecute_open_waiting cfg s now hs (by omega), by simp [hs], by omega⟩

theorem recordSuccess_halfOpen (cfg : CircuitBreakerConfig) (s : EndpointStats)
    (now : Int) (h : s.state = .halfOpen) :
    (recordSuccess cfg s now).state = .closed ∧ (recordSuccess cfg s now).failures = 0 := by
  unfold recordSuccess
  rw [if_pos (by simpa using h)]
  exact ⟨rfl, rfl⟩

theorem recordFailure_halfOpen (cfg : CircuitBreakerConfig) (s : EndpointStats)
    (now : Int) (h : s.state = .halfOpen) :
    (recordFailure cfg s now).state = .«open» := by
  simp only [recordFailure]
  split
  · rfl
  · simp [h]

/-! ### Helper lemmas: RequestQueue -/

theorem shouldRetry_circuitOpenError : shouldRetry circuitOpenError = false := by
  decide

theorem handleFailure_not_retryable (cfg : RateLimitConfig) (req : QueuedRequest)
    (e : ErrorValue) (r : ℚ) (h : shouldRetry e = false) :
    handleFailure cfg req e r = .rejected e := by
  unfold handleFailure
  rw [h, Bool.and_false, if_neg (by simp)]

theorem handleFailure_retryable (cfg : RateLimitConfig) (req : QueuedRequest)
    (e : ErrorValue) (r : ℚ) (h : shouldRetry e = true)
    (hrc : req.retryCount < cfg.maxRetries) :
    handleFailure cfg req e r =
      .retried { req with retryCount := req.retryCount + 1 }
        ((Nat.min (cfg.baseDelayMs * 2 ^ req.retryCount) cfg.maxDelayMs : ℚ) +
          r * (1 / 10) *
            (Nat.min (cfg.baseDelayMs * 2 ^ req.retryCount) cfg.maxDelayMs : ℚ)) := by
  unfold handleFailure
  rw [h, Bool.and_true, if_pos (by simpa using hrc)]
  simp

theorem executeRequest_circuitFalse (cfg : RateLimitConfig)
    (cbCfg : CircuitBreakerConfig) (cb : EndpointStats) (req : QueuedRequest)
    (now : Int) (fetch : FetchOutcome) (r : ℚ)
    (h : (canExecute cbCfg cb now).1 = false) :
    executeRequest cfg cbCfg cb req now fetch r =
      (handleFailure cfg req circuitOpenError r, recordFailure cbCfg cb now) := by
  obtain ⟨heq, -, -⟩ := canExecute_false_inv cbCfg cb now h
  unfold executeRequest
  rw [heq]

/-! ### Helper lemmas: search aggregation -/

theorem collectLoop_all_errors :
    ∀ (fetches : List (Except ErrorValue (List RawResult)))
      (acc : List RawResult) (le : Option ErrorValue),
      fetches.all exceptIsError = true →
      (collectLoop acc le fetches).1 = acc := by
  intro fetches
  induction fetches with
  | nil => intro acc le _; rfl
  | cons f rest ih =>
      intro acc le hall
      simp only [List.all_cons, Bool.and_eq_true] at hall
      cases f with
      | error e => exact ih acc (some e) hall.2
      | ok rs => simp [exceptIsError] at hall

theorem searchFresh_isOk (q : String) (p L : Nat)
    (cached : Option (List SearchResult))
    (fetches : List (Except ErrorValue (List RawResult))) (rand : Nat → ℚ) :
    exceptIsOk (searchFresh q p L cached fetches rand).1 = true := by
  simp only [searchFresh]
  split <;> rfl

theorem executeRequest_thrown (cfg : RateLimitConfig)
    (cbCfg : CircuitBreakerConfig) (cb : EndpointStats) (req : QueuedRequest)
    (now : Int) (e : ErrorValue) (r : ℚ)
    (h : (canExecute cbCfg cb now).1 = true) :
    executeRequest cfg cbCfg cb req now (.thrown e) r =
      (handleFailure cfg req e r,
        recordFailure cbCfg (canExecute cbCfg cb now).2 now) := by
  rcases hE : canExecute cbCfg cb now with ⟨b, s2⟩
  rw [hE] at h
  cases b with
  | false => simp at h
  | true =>
      unfold executeRequest
      rw [hE]

/-! ### Helper lemmas: deduplication and diversity cap -/

theorem urlSeen_cons_false {u v : String} {seen : List String}
    (h : urlSeen (u :: seen) v = false) : u ≠ v ∧ urlSeen seen v = false := by
  by_cases he : u = v
  · simp [urlSeen, he] at h
  · exact ⟨he, by simpa [urlSeen, he] using h⟩

theorem domCount_cons (d' : String) (n : Nat) (dom : List (String × Nat))
    (d : String) :
    domCount ((d', n) :: dom) d = if d' = d then n else domCount dom d := rfl

theorem dedupLoop_mem :
    ∀ (rest : List SearchResult) (seen : List String)
      (dom : List (String × Nat)) (r : SearchResult),
      r ∈ dedupLoop seen dom rest → r ∈ rest := by
  intro rest
  induction rest with
  | nil => intro seen dom r hr; simpa [dedupLoop] using hr
  | cons x rest ih =>
      intro seen dom r hr
      simp only [dedupLoop] at hr
      split at hr
      · exact List.mem_cons_of_mem x (ih seen dom r hr)
      · split at hr
        · exact List.mem_cons_of_mem x (ih seen dom r hr)
        · rcases List.mem_cons.mp hr with h | h
          · subst h; exact List.mem_cons_self r rest
          · exact List.mem_cons_of_mem x (ih _ _ r h)

theorem dedupLoop_not_seen :
    ∀ (rest : List SearchResult) (seen : List String)
      (dom : List (String × Nat)) (r : SearchResult),
      r ∈ dedupLoop seen dom rest → urlSeen seen r.url = false := by
  intro rest
  induction rest with
  | nil => intro seen dom r hr; simp [dedupLoop] at hr
  | cons x rest ih =>
      intro seen dom r hr
      simp only [dedupLoop] at hr
      split at hr
      · exact ih seen dom r hr
      · split at hr
        · exact ih seen dom r hr
        · rename_i hu _
          rcases List.mem_cons.mp hr with h | h
          · subst h; simpa using hu
          · exact (urlSeen_cons_false (ih _ _ r h)).2

theorem dedupLoop_nodup_urls :
    ∀ (rest : List SearchResult) (seen : List String)
      (dom : List (String × Nat)),
      ((dedupLoop seen dom rest).map SearchResult.url).Nodup := by
  intro rest
  induction rest with
  | nil => intro seen dom; simp [dedupLoop]
  | cons x rest ih =>
      intro seen dom
      simp only [dedupLoop]
      split
      · exact ih seen dom
      · split
        · exact ih seen dom
        · simp only [List.map_cons, List.nodup_cons]
          refine ⟨?_, ih _ _⟩
          intro hmem
          obtain ⟨r, hr, hurl⟩ := List.mem_map.mp hmem
          exact (urlSeen_cons_false (dedupLoop_not_seen rest _ _ r hr)).1 hurl.symm

theorem dedupLoop_domain_blocked :
    ∀ (rest : List SearchResult) (seen : List String)
      (dom : List (String × Nat)) (d : String),
      domainCap d ≤ domCount dom d →
      ∀ r ∈ dedupLoop seen dom rest, r.domain ≠ d := by
  intro rest
  induction rest with
  | nil => intro seen dom d _ r hr; simp [dedupLoop] at hr
  | cons x rest ih =>
      intro seen dom d hcap r hr
      simp only [dedupLoop] at hr
      split at hr
      · exact ih seen dom d hcap r hr
      · split at hr
        · exact ih seen dom d hcap r hr
        · rename_i hu hcnt
          have hmp : maxPerDomain x = domainCap x.domain := rfl
          rcases List.mem_cons.mp hr with h | h
          · subst h
            intro hd
            apply hcnt
            rw [hmp, hd]
            exact hcap
          · refine ih (x.url :: seen)
              ((x.domain, domCount dom x.domain + 1) :: dom) d ?_ r h
            by_cases hxd : x.domain = d
            · exfalso
              apply hcnt
              rw [hmp, hxd]
              exact hcap
            · rw [domCount_cons, if_neg hxd]
              exact hcap

theorem dedupLoop_first :
    ∀ (rest : List SearchResult) (seen : List String)
      (dom : List (String × Nat)),
      urlDomainConsistent rest →
      ∀ r ∈ dedupLoop seen dom rest,
        ∃ pre post, rest = pre ++ r :: post ∧ ∀ x ∈ pre, x.url ≠ r.url := by
  intro rest
  induction rest with
  | nil => intro seen dom _ r hr; simp [dedupLoop] at hr
  | cons x rest ih =>
      intro seen dom hcons r hr
      have hcons' : urlDomainConsistent rest := fun a ha b hb =>
        hcons a (List.mem_cons_of_mem x ha) b (List.mem_cons_of_mem x hb)
      simp only [dedupLoop] at hr
      split at hr
      · rename_i hu
        obtain ⟨pre, post, heq, hpre⟩ := ih seen dom hcons' r hr
        have h1 := dedupLoop_not_seen rest seen dom r hr
        refine ⟨x :: pre, post, by simp [heq], ?_⟩
        intro y hy
        rcases List.mem_cons.mp hy with h | h
        · subst h
          intro he
          rw [he, h1] at hu
          simp at hu
        · exact hpre y h
      · split at hr
        · rename_i hu hcap
          obtain ⟨pre, post, heq, hpre⟩ := ih seen dom hcons' r hr
          have hrmem : r ∈ rest := dedupLoop_mem rest seen dom r hr
          refine ⟨x :: pre, post, by simp [heq], ?_⟩
          intro y hy
          rcases List.mem_cons.mp hy with h | h
          · subst h
            intro he
            have hdom : y.domain = r.domain :=
              hcons y (List.mem_cons_self y rest) r (List.mem_cons_of_mem y hrmem) he
            exact dedupLoop_domain_blocked rest seen dom y.domain hcap r hr hdom.symm
          · exact hpre y h
        · rcases List.mem_cons.mp hr with h | h
          · subst h
            exact ⟨[], rest, rfl, by intro y hy; simp at hy⟩
          · obtain ⟨pre, post, heq, hpre⟩ := ih (x.url :: seen)
              ((x.domain, domCount dom x.domain + 1) :: dom) hcons' r h
            have h1 := dedupLoop_not_seen rest (x.url :: seen)
              ((x.domain, domCount dom x.domain + 1) :: dom) r h
            refine ⟨x :: pre, post, by simp [heq], ?_⟩
            intro y hy
            rcases List.mem_cons.mp hy with hyx | hyp
            · subst hyx; exact (urlSeen_cons_false h1).1
            · exact hpre y hyp

theorem dedupLoop_countP :
    ∀ (rest : List SearchResult) (seen : List String)
      (dom : List (String × Nat)) (d : String),
      domCount dom d < domainCap d →
      (dedupLoop seen dom rest).countP (fun x => x.domain == d) ≤
        domainCap d - domCount dom d := by
  intro rest
  induction rest with
  | nil => intro seen dom d _; simp [dedupLoop]
  | cons x rest ih =>
      intro seen dom d hlt
      simp only [dedupLoop]
      split
      · exact ih seen dom d hlt
      · split
        · exact ih seen dom d hlt
        · rename_i hu hcnt
          have hmp : maxPerDomain x = domainCap x.domain := rfl
          rw [List.countP_cons]
          by_cases hxd : x.domain = d
          · have hdc : domCount dom x.domain = domCount dom d := by rw [hxd]
            have hcap : domCount dom x.domain < domainCap d := by
              have h2 := lt_of_not_le hcnt
              rw [hmp, hxd] at h2
              rw [hxd]
              exact h2
            have hpx : (x.domain == d) = true := by simpa using hxd
            have hone : (if (x.domain == d) = true then 1 else 0) = 1 := by
              rw [hpx]
              simp
            by_cases hfull : domCount dom x.domain + 1 < domainCap d
            · have hrec := ih (x.url :: seen)
                ((x.domain, domCount dom x.domain + 1) :: dom) d
                (by rw [domCount_cons, if_pos hxd]; exact hfull)
              rw [domCount_cons, if_pos hxd] at hrec
              omega
            · have hblocked := dedupLoop_domain_blocked rest (x.url :: seen)
                ((x.domain, domCount dom x.domain + 1) :: dom) d
                (by rw [domCount_cons, if_pos hxd]; omega)
              have hzero : (dedupLoop (x.url :: seen)
                  ((x.domain, domCount dom x.domain + 1) :: dom) rest).countP
                    (fun x => x.domain == d) = 0 := by
                rw [List.countP_eq_zero]
                intro a ha
                simpa using hblocked a ha
              omega
          · have hrec := ih (x.url :: seen)
              ((x.domain, domCount dom x.domain + 1) :: dom) d
              (by rw [domCount_cons, if_neg hxd]; exact hlt)
            rw [domCount_cons, if_neg hxd] at hrec
            have hpx : (x.domain == d) = false := by simpa using hxd
            have hzero : (if (x.domain == d) = true then 1 else 0) = 0 := by
              rw [hpx]
              simp
            omega

/-! ### Claim theorems -/

/-- C1 (counterexample): `SearchAPI.search` does throw on a whitespace-only
query — the guard at search.ts lines 65-67 throws
`new Error('Search query is required')` before the try/catch, so the promise
rejects instead of resolving to a well-formed response. -/
theorem search_throws_on_whitespace_query :
    search "   " 1 10 none [] (fun _ => 0) =
      (.error (plainError "Search query is required"), none) := by
  rfl

/-- C1 (amended): for every input whose query is non-empty after trimming,
`search` never throws — it resolves on every path — and when every source
adapter fails (and there is no cached set) it resolves to the well-formed
empty response `results = [], totalCount = 0, hasMore = false`, annotated with
the last adapter error as a non-fatal note. -/
theorem search_resolves_for_nonempty_query (q : String) (p L : Nat)
    (cached : Option (List SearchResult))
    (fetches : List (Except ErrorValue (List RawResult))) (rand : Nat → ℚ)
    (hq : jsTrim q ≠ "") :
    exceptIsOk (search q p L cached fetches rand).1 = true ∧
    (cached = none → fetches.all exceptIsError = true →
      search q p L cached fetches rand =
        (.ok (emptyResponse p (jsTrim q)
          ((collectLoop [] none fetches).2.getD
            (plainError "All search endpoints failed")).message), none)) := by
  constructor
  · unfold search
    rw [if_neg hq]
    cases cached with
    | none => exact searchFresh_isOk q p L none fetches rand
    | some rs =>
        show exceptIsOk (if 1 < p then
            ((Except.ok (pagedResponse rs p L (jsTrim q)) :
              Except ErrorValue SearchResponse), some rs)
          else searchFresh q p L (some rs) fetches rand).1 = true
        by_cases hp : 1 < p
        · rw [if_pos hp]
          rfl
        · rw [if_neg hp]
          exact searchFresh_isOk q p L (some rs) fetches rand
  · intro hc hall
    subst hc
    unfold search
    rw [if_neg hq]
    have h1 : (collectLoop [] none fetches).1 = [] :=
      collectLoop_all_errors fetches [] none hall
    simp only [searchFresh]
    rw [if_pos h1]

/-- C1 witness: the amended theorem applied to the concrete query `"cats"`
with a single failing endpoint. -/
theorem search_resolves_for_nonempty_query_witness :
    exceptIsOk (search "cats" 1 10 none
      ([.error (plainError "Failed to fetch")] :
        List (Except ErrorValue (List RawResult)))
      (fun _ => 0)).1 = true ∧
    ((none : Option (List SearchResult)) = none →
      ([.error (plainError "Failed to fetch")] :
        List (Except ErrorValue (List RawResult))).all exceptIsError = true →
      search "cats" 1 10 none
          ([.error (plainError "Failed to fetch")] :
            List (Except ErrorValue (List RawResult)))
          (fun _ => 0) =
        (.ok (emptyResponse 1 (jsTrim "cats")
          ((collectLoop [] none
            ([.error (plainError "Failed to fetch")] :
              List (Except ErrorValue (List RawResult)))).2.getD
            (plainError "All search endpoints failed")).message), none)) :=
  search_resolves_for_nonempty_query "cats" 1 10 none
    [.error (plainError "Failed to fetch")] (fun _ => 0) (by decide)

/-- C2 (counterexample): with `failureThreshold = 1`, `recoveryTimeMs = 10`,
one recorded failure at time 0, and the recovery time elapsed at time 10, the
first `canExecute` returns true and moves the endpoint to half-open — but a
second `canExecute` call before the trial settles also returns true, refuting
"the next `canExecute` call returns true exactly once … with subsequent
`canExecute` calls before the trial settles not returning true"
(part_012 lines 310-311: the half-open case returns true unconditionally). -/
theorem canExecute_two_trials_after_recovery :
    (canExecute ⟨1, 10, 100⟩
        (recordFailure ⟨1, 10, 100⟩ initialEndpointStats 0) 10).1 = true ∧
    ((canExecute ⟨1, 10, 100⟩
        (recordFailure ⟨1, 10, 100⟩ initialEndpointStats 0) 10).2).state = .halfOpen ∧
    (canExecute ⟨1, 10, 100⟩
        ((canExecute ⟨1, 10, 100⟩
          (recordFailure ⟨1, 10, 100⟩ initialEndpointStats 0) 10).2) 10).1 = true := by
  decide

/-- C2 (amended): after exactly `failureThreshold` recorded failures from the
initial endpoint state the circuit is open; `canExecute` returns false while
`recoveryTimeMs` has not elapsed since the last failure; once it has elapsed,
`canExecute` returns true and moves the endpoint to half-open — and every
further `canExecute` call in the half-open state also returns true (the code
does not limit the half-open state to a single trial); `recordSuccess` in
half-open closes the circuit and resets the failure count to 0;
`recordFailure` in half-open sets the state back to open. -/
theorem circuitBreaker_state_machine (cfg : CircuitBreakerConfig) (ts : List Int)
    (s : EndpointStats) (hthr : 1 ≤ cfg.failureThreshold)
    (hlen : ts.length = cfg.failureThreshold)
    (hs : s = applyFailures cfg initialEndpointStats ts) :
    s.state = .«open» ∧
    (∀ now : Int, now - s.lastFailureTime < cfg.recoveryTimeMs →
      (canExecute cfg s now).1 = false) ∧
    (∀ now : Int, cfg.recoveryTimeMs ≤ now - s.lastFailureTime →
      canExecute cfg s now = (true, { s with state := .halfOpen })) ∧
    (∀ (s' : EndpointStats) (t : Int), s'.state = .halfOpen →
      (canExecute cfg s' t).1 = true) ∧
    (∀ (s' : EndpointStats) (t : Int), s'.state = .halfOpen →
      (recordSuccess cfg s' t).state = .closed ∧
        (recordSuccess cfg s' t).failures = 0) ∧
    (∀ (s' : EndpointStats) (t : Int), s'.state = .halfOpen →
      (recordFailure cfg s' t).state = .«open») := by
  have hopen : s.state = .«open» := by
    subst hs
    refine applyFailures_state_open cfg ts initialEndpointStats ?_ ?_
    · intro hnil
      rw [hnil] at hlen
      simp at hlen
      omega
    · simp [initialEndpointStats]
      omega
  refine ⟨hopen, ?_, ?_, ?_, ?_, ?_⟩
  · intro now hlt
    rw [canExecute_open_waiting cfg s now hopen hlt]
  · intro now hge
    exact canExecute_open_elapsed cfg s now hopen hge
  · intro s' t h'
    rw [canExecute_halfOpen cfg s' t h']
  · intro s' t h'
    exact recordSuccess_halfOpen cfg s' t h'
  · intro s' t h'
    exact recordFailure_halfOpen cfg s' t h'

/-- C2 witness: the amended state machine at `failureThreshold = 2`,
`recoveryTimeMs = 100`, with failures recorded at times 3 and 7. -/
theorem circuitBreaker_state_machine_witness :
    (applyFailures ⟨2, 100, 1000⟩ initialEndpointStats [3, 7]).state = .«open» ∧
    (∀ now : Int,
      now - (applyFailures ⟨2, 100, 1000⟩ initialEndpointStats [3, 7]).lastFailureTime <
          (⟨2, 100, 1000⟩ : CircuitBreakerConfig).recoveryTimeMs →
      (canExecute ⟨2, 100, 1000⟩
        (applyFailures ⟨2, 100, 1000⟩ initialEndpointStats [3, 7]) now).1 = false) ∧
    (∀ now : Int,
      (⟨2, 100, 1000⟩ : CircuitBreakerConfig).recoveryTimeMs ≤
          now - (applyFailures ⟨2, 100, 1000⟩ initialEndpointStats [3, 7]).lastFailureTime →
      canExecute ⟨2, 100, 1000⟩
          (applyFailures ⟨2, 100, 1000⟩ initialEndpointStats [3, 7]) now =
        (true, { applyFailures ⟨2, 100, 1000⟩ initialEndpointStats [3, 7] with
          state := .halfOpen })) ∧
    (∀ (s' : EndpointStats) (t : Int), s'.state = .halfOpen →
      (canExecute ⟨2, 100, 1000⟩ s' t).1 = true) ∧
    (∀ (s' : EndpointStats) (t : Int), s'.state = .halfOpen →
      (recordSuccess ⟨2, 100, 1000⟩ s' t).state = .closed ∧
        (recordSuccess ⟨2, 100, 1000⟩ s' t).failures = 0) ∧
    (∀ (s' : EndpointStats) (t : Int), s'.state = .halfOpen →
      (recordFailure ⟨2, 100, 1000⟩ s' t).state = .«open») :=
  circuitBreaker_state_machine ⟨2, 100, 1000⟩ [3, 7]
    (applyFailures ⟨2, 100, 1000⟩ initialEndpointStats [3, 7])
    (by decide) (by decide) rfl

/-- C3: when the endpoint's circuit breaker reports `canExecute = false` at
dispatch time, `executeRequest` settles the request by rejecting it with the
circuit-open error: the outcome is `rejected`, not `retried`, so the retry
count is not incremented and the request is not re-queued (the circuit-open
message matches none of the retryable patterns of `shouldRetry`). -/
theorem circuitOpen_rejects_without_retry (cfg : RateLimitConfig)
    (cbCfg : CircuitBreakerConfig) (cb : EndpointStats) (req : QueuedRequest)
    (now : Int) (fetch : FetchOutcome) (r : ℚ)
    (h : (canExecute cbCfg cb now).1 = false) :
    (executeRequest cfg cbCfg cb req now fetch r).1 = .rejected circuitOpenError := by
  rw [executeRequest_circuitFalse cfg cbCfg cb req now fetch r h]
  exact handleFailure_not_retryable cfg req circuitOpenError r shouldRetry_circuitOpenError

/-- C3 witness: a request against an endpoint whose circuit opened at time 100
with a 30000 ms recovery window, dispatched at time 200. -/
theorem circuitOpen_rejects_without_retry_witness :
    (canExecute ⟨5, 30000, 60000⟩ ⟨5, 0, 100, 0, .«open»⟩ 200).1 = false ∧
    (executeRequest ⟨8, 4, 3, 1000, 10000, 15000⟩ ⟨5, 30000, 60000⟩
        ⟨5, 0, 100, 0, .«open»⟩ ⟨"req1", "https://api.mwmbl.org/search", 0, 0, .normal⟩
        200 (.thrown (plainError "network down")) 0).1 =
      .rejected circuitOpenError :=
  ⟨by decide,
    circuitOpen_rejects_without_retry ⟨8, 4, 3, 1000, 10000, 15000⟩
      ⟨5, 30000, 60000⟩ ⟨5, 0, 100, 0, .«open»⟩
      ⟨"req1", "https://api.mwmbl.org/search", 0, 0, .normal⟩ 200
      (.thrown (plainError "network down")) 0 (by decide)⟩

/-- C4 (counterexample): the retry timer re-queues with
`this.queue.unshift(request)` (part_016 line 156), i.e. at the absolute front
of the whole queue: a retried normal-priority request lands at index 0, in
front of a queued high-priority request, whereas the front of its own priority
tier (the position `findInsertIndex` computes) is index 1 — refuting "at the
front of its own priority tier (behind all queued requests of strictly higher
priority)". -/
theorem retriedRequest_requeued_at_absolute_front :
    requeueRetried ⟨"r2", "https://b", 1, 0, .normal⟩
        [⟨"r1", "https://a", 0, 0, .high⟩] =
      [⟨"r2", "https://b", 1, 0, .normal⟩, ⟨"r1", "https://a", 0, 0, .high⟩] ∧
    findInsertIndex [⟨"r1", "https://a", 0, 0, .high⟩] .normal = 1 ∧
    priorityOrder .normal < priorityOrder .high := by
  decide

/-- C4 (amended): a request failing with a retryable error while
`retryCount < maxRetries` is re-queued with retry count incremented after a
total delay `min(baseDelayMs · 2^(retryCount−1), maxDelayMs) + jitter`, where
the jitter `r · 0.1 · delay` is non-negative and at most a tenth of the base
delay — and the re-queue puts it at the absolute front of the whole queue
(ahead even of strictly higher-priority queued requests), not merely at the
front of its own tier. -/
theorem retry_backoff_and_front_requeue (cfg : RateLimitConfig)
    (cbCfg : CircuitBreakerConfig) (cb : EndpointStats) (req : QueuedRequest)
    (now : Int) (e : ErrorValue) (r : ℚ)
    (hce : (canExecute cbCfg cb now).1 = true)
    (hre : shouldRetry e = true)
    (hrc : req.retryCount < cfg.maxRetries)
    (hr0 : 0 ≤ r) (hr1 : r ≤ 1) :
    (executeRequest cfg cbCfg cb req now (.thrown e) r).1 =
      .retried { req with retryCount := req.retryCount + 1 }
        ((Nat.min (cfg.baseDelayMs * 2 ^ req.retryCount) cfg.maxDelayMs : ℚ) +
          r * (1 / 10) *
            (Nat.min (cfg.baseDelayMs * 2 ^ req.retryCount) cfg.maxDelayMs : ℚ)) ∧
    0 ≤ r * (1 / 10) *
        (Nat.min (cfg.baseDelayMs * 2 ^ req.retryCount) cfg.maxDelayMs : ℚ) ∧
    r * (1 / 10) * (Nat.min (cfg.baseDelayMs * 2 ^ req.retryCount) cfg.maxDelayMs : ℚ) ≤
      (1 / 10) * (Nat.min (cfg.baseDelayMs * 2 ^ req.retryCount) cfg.maxDelayMs : ℚ) ∧
    (∀ queue, requeueRetried { req with retryCount := req.retryCount + 1 } queue =
      { req with retryCount := req.retryCount + 1 } :: queue) := by
  refine ⟨?_, ?_, ?_, fun queue => rfl⟩
  · rw [executeRequest_thrown cfg cbCfg cb req now e r hce]
    exact handleFailure_retryable cfg req e r hre hrc
  · exact mul_nonneg (mul_nonneg hr0 (by norm_num)) (Nat.cast_nonneg _)
  · apply mul_le_mul_of_nonneg_right _ (Nat.cast_nonneg _)
    calc r * (1 / 10) ≤ 1 * (1 / 10) :=
          mul_le_mul_of_nonneg_right hr1 (by norm_num)
      _ = 1 / 10 := one_mul _

/-- C4 witness: the amended retry behaviour at a concrete failing request
with `retryCount = 0`, `baseDelayMs = 1000`, `maxDelayMs = 10000` and a zero
jitter draw. -/
theorem retry_backoff_and_front_requeue_witness :
    (executeRequest ⟨8, 4, 3, 1000, 10000, 15000⟩ ⟨5, 30000, 60000⟩
        initialEndpointStats ⟨"r3", "https://c", 0, 5, .normal⟩ 5
        (.thrown (plainError "network down")) 0).1 =
      .retried { (⟨"r3", "https://c", 0, 5, .normal⟩ : QueuedRequest) with
          retryCount := 0 + 1 }
        ((Nat.min (1000 * 2 ^ 0) 10000 : ℚ) +
          0 * (1 / 10) * (Nat.min (1000 * 2 ^ 0) 10000 : ℚ)) ∧
    0 ≤ (0 : ℚ) * (1 / 10) * (Nat.min (1000 * 2 ^ 0) 10000 : ℚ) ∧
    (0 : ℚ) * (1 / 10) * (Nat.min (1000 * 2 ^ 0) 10000 : ℚ) ≤
      (1 / 10) * (Nat.min (1000 * 2 ^ 0) 10000 : ℚ) ∧
    (∀ queue, requeueRetried { (⟨"r3", "https://c", 0, 5, .normal⟩ : QueuedRequest) with
        retryCount := 0 + 1 } queue =
      { (⟨"r3", "https://c", 0, 5, .normal⟩ : QueuedRequest) with
        retryCount := 0 + 1 } :: queue) := by
  have h := retry_backoff_and_front_requeue ⟨8, 4, 3, 1000, 10000, 15000⟩
    ⟨5, 30000, 60000⟩ initialEndpointStats ⟨"r3", "https://c", 0, 5, .normal⟩ 5
    (plainError "network down") 0 (by decide) (by decide) (by decide)
    (by decide) (by decide)
  exact h

/-- C5 (counterexample): the queue-timeout eviction rejects with
`new Error('Request timeout in queue')` (part_016 line 99) — a plain `Error`
whose `name` is `"Error"`, not an instance of the `TimeoutError` class of
part_012, whose `name` is `"TimeoutError"`. -/
theorem queueTimeout_error_is_plain_error :
    dequeueStep ⟨8, 4, 3, 1000, 10000, 15000⟩ ⟨"r1", "https://a", 0, 0, .normal⟩
        20000 =
      .evict (plainError "Request timeout in queue") ∧
    (plainError "Request timeout in queue").name = "Error" ∧
    (mkTimeoutError "Request timeout in queue").name = "TimeoutError" ∧
    (plainError "Request timeout in queue").name ≠
      (mkTimeoutError "Request timeout in queue").name := by
  decide

/-- C5 (amended): a request whose `timeoutMs` elapses while it is still
waiting in the queue is, whenever it is dequeued afterwards, evicted and
rejected with the generic `Error('Request timeout in queue')` (not the
`TimeoutError` class), and is never dispatched — dispatch being the only
path on which `fetch` is invoked, the network call is never issued. -/
theorem queuedTimeout_evicted_never_dispatched (cfg : RateLimitConfig)
    (req : QueuedRequest) (now now' : Int)
    (h : cfg.timeoutMs < now - req.createdAt) (hm : now ≤ now') :
    dequeueStep cfg req now' = .evict (plainError "Request timeout in queue") ∧
    dequeueStep cfg req now' ≠ .dispatch := by
  have hlate : cfg.timeoutMs < now' - req.createdAt := by omega
  unfold dequeueStep
  rw [if_pos hlate]
  exact ⟨rfl, by simp⟩

/-- C5 witness: a request created at time 0 with a 15000 ms timeout, timed out
by time 16000 and dequeued at time 16500. -/
theorem queuedTimeout_evicted_never_dispatched_witness :
    dequeueStep ⟨8, 4, 3, 1000, 10000, 15000⟩ ⟨"r7", "https://d", 0, 0, .low⟩
        16500 =
      .evict (plainError "Request timeout in queue") ∧
    dequeueStep ⟨8, 4, 3, 1000, 10000, 15000⟩ ⟨"r7", "https://d", 0, 0, .low⟩
        16500 ≠
      .dispatch :=
  queuedTimeout_evicted_never_dispatched ⟨8, 4, 3, 1000, 10000, 15000⟩
    ⟨"r7", "https://d", 0, 0, .low⟩ 16000 16500 (by decide) (by decide)

/-- C10: when `canExecute` reports false at dispatch time, `executeRequest`
still runs `recordFailure` for the endpoint, which increments the failure
count and sets `lastFailureTime` to the current time; the endpoint stays
open, so `canExecute` keeps returning false until `recoveryTimeMs` has
elapsed from the gated dispatch itself — every gated dispatch restarts the
recovery window and postpones the half-open trial. -/
theorem gatedDispatch_restarts_recovery (cfg : RateLimitConfig)
    (cbCfg : CircuitBreakerConfig) (cb : EndpointStats) (req : QueuedRequest)
    (now : Int) (fetch : FetchOutcome) (r : ℚ)
    (h : (canExecute cbCfg cb now).1 = false) :
    (executeRequest cfg cbCfg cb req now fetch r).2 = recordFailure cbCfg cb now ∧
    (recordFailure cbCfg cb now).failures = cb.failures + 1 ∧
    (recordFailure cbCfg cb now).lastFailureTime = now ∧
    (∀ t : Int, t - now < cbCfg.recoveryTimeMs →
      (canExecute cbCfg (recordFailure cbCfg cb now) t).1 = false) := by
  obtain ⟨heq, hopen, -⟩ := canExecute_false_inv cbCfg cb now h
  refine ⟨?_, recordFailure_failures cbCfg cb now,
    recordFailure_lastFailureTime cbCfg cb now, ?_⟩
  · rw [executeRequest_circuitFalse cfg cbCfg cb req now fetch r h]
  · intro t ht
    have h1 : (recordFailure cbCfg cb now).state = .«open» :=
      recordFailure_state_open cbCfg cb now hopen
    rw [canExecute_open_waiting cbCfg (recordFailure cbCfg cb now) t h1
      (by rw [recordFailure_lastFailureTime]; omega)]

/-- C6: for every input list of normalized results — in particular lists with
repeated URLs — whose URLs determine their domains (as holds for every list
the aggregator builds, since `transformResult` derives `domain` from `url`),
the output of `deduplicateAndImproveResults` contains each URL at most once,
and every kept result is the first occurrence of its URL in the ranking
order (the sorted list). -/
theorem dedup_urls_unique_first_kept (l : List SearchResult)
    (h : urlDomainConsistent l) :
    ((deduplicateAndImproveResults l).map SearchResult.url).Nodup ∧
    (∀ r ∈ deduplicateAndImproveResults l, ∃ pre post,
      rankResults l = pre ++ r :: post ∧ ∀ x ∈ pre, x.url ≠ r.url) := by
  constructor
  · exact dedupLoop_nodup_urls (rankResults l) [] []
  · intro r hr
    have hcons : urlDomainConsistent (rankResults l) := by
      intro a ha b hb
      exact h a (List.mem_mergeSort.mp ha) b (List.mem_mergeSort.mp hb)
    exact dedupLoop_first (rankResults l) [] [] hcons r hr

/-- C6 witness: the dedup guarantee on a concrete list carrying the same URL
twice. -/
theorem dedup_urls_unique_first_kept_witness :
    ((deduplicateAndImproveResults exampleDupResults).map SearchResult.url).Nodup ∧
    (∀ r ∈ deduplicateAndImproveResults exampleDupResults, ∃ pre post,
      rankResults exampleDupResults = pre ++ r :: post ∧
        ∀ x ∈ pre, x.url ≠ r.url) :=
  dedup_urls_unique_first_kept exampleDupResults
    (by unfold urlDomainConsistent; decide)

/-- C7: for every input list, the output of `deduplicateAndImproveResults`
contains at most `domainCap d` results for each domain `d`, and that cap is 2
for domains containing `wikipedia` and 3 otherwise — so at most 3 results per
ordinary domain and at most 2 for the over-represented class. -/
theorem dedup_domain_cap (l : List SearchResult) (d : String) :
    (deduplicateAndImproveResults l).countP (fun x => x.domain == d) ≤
      domainCap d ∧
    domainCap d = (if strIncludes d "wikipedia" then 2 else 3) := by
  refine ⟨?_, rfl⟩
  have hpos : 0 < domainCap d := by
    unfold domainCap
    split <;> omega
  have h := dedupLoop_countP (rankResults l) [] [] d hpos
  simpa using h

/-- C8: pagination over a cached result set: for `2 ≤ p` the cached branch of
`search` returns exactly the slice `[(p−1)·L, p·L)` of the cached list with
`hasMore ↔ p·L < totalCount`; the page-1 and page-2 slices concatenate to the
first `2·L` elements of the set and are disjoint when the set's URLs are
distinct; and a fresh page-1 search that finds results returns the slice
`[0, L)` of exactly the set it caches, so a page-1-then-page-2 sequence reads
both pages from the same cached set. -/
theorem search_cached_pagination (q : String) (p L : Nat)
    (rs : List SearchResult)
    (fetches : List (Except ErrorValue (List RawResult))) (rand : Nat → ℚ)
    (hq : jsTrim q ≠ "") (hp : 2 ≤ p) :
    search q p L (some rs) fetches rand =
      (.ok (pagedResponse rs p L (jsTrim q)), some rs) ∧
    (pagedResponse rs p L (jsTrim q)).results = (rs.drop ((p - 1) * L)).take L ∧
    ((pagedResponse rs p L (jsTrim q)).hasMore = true ↔ p * L < rs.length) ∧
    (pagedResponse rs 1 L (jsTrim q)).results ++
        (pagedResponse rs 2 L (jsTrim q)).results = rs.take (2 * L) ∧
    ((rs.map SearchResult.url).Nodup →
      ∀ x ∈ (pagedResponse rs 1 L (jsTrim q)).results,
        x ∉ (pagedResponse rs 2 L (jsTrim q)).results) ∧
    ((collectLoop [] none fetches).1 ≠ [] →
      search q 1 L none fetches rand =
        (.ok (pagedResponse (freshResults fetches rand) 1 L (jsTrim q)),
          some (freshResults fetches rand))) := by
  have hmul : (p - 1) * L + L = p * L := by
    cases p with
    | zero => omega
    | succ n => simp [Nat.succ_sub_one, Nat.succ_mul]
  refine ⟨?_, rfl, ?_, ?_, ?_, ?_⟩
  · unfold search
    rw [if_neg hq]
    show (if 1 < p then
        ((Except.ok (pagedResponse rs p L (jsTrim q)) :
          Except ErrorValue SearchResponse), some rs)
      else searchFresh q p L (some rs) fetches rand) = _
    rw [if_pos (by omega)]
  · simp only [pagedResponse, decide_eq_true_eq]
    rw [hmul]
  · simp only [pagedResponse]
    simp only [Nat.sub_self, Nat.zero_mul, List.drop_zero]
    have h21 : (2 - 1) * L = L := by omega
    rw [h21, two_mul, List.take_add]
  · intro hnd x h1 h2
    have hsplit : rs.map SearchResult.url =
        (rs.take L).map SearchResult.url ++ (rs.drop L).map SearchResult.url := by
      rw [← List.map_append, List.take_append_drop]
    rw [hsplit] at hnd
    have hdisj := (List.nodup_append.mp hnd).2.2
    simp only [pagedResponse, Nat.sub_self, Nat.zero_mul, List.drop_zero] at h1 h2
    have h21 : (2 - 1) * L = L := by omega
    rw [h21] at h2
    exact hdisj (List.mem_map_of_mem SearchResult.url h1)
      (List.mem_map_of_mem SearchResult.url (List.take_subset L _ h2))
  · intro hne
    unfold search
    rw [if_neg hq]
    simp only [searchFresh]
    rw [if_neg hne]
    rfl

/-- C8 witness: pagination with limit 1, page 2 over a concrete cached set of
three distinct results. -/
theorem search_cached_pagination_witness :
    search "news" 2 1 (some examplePagedResults) [] (fun _ => 0) =
      (.ok (pagedResponse examplePagedResults 2 1 (jsTrim "news")),
        some examplePagedResults) ∧
    (pagedResponse examplePagedResults 2 1 (jsTrim "news")).results =
      (examplePagedResults.drop ((2 - 1) * 1)).take 1 ∧
    ((pagedResponse examplePagedResults 2 1 (jsTrim "news")).hasMore = true ↔
      2 * 1 < examplePagedResults.length) ∧
    (pagedResponse examplePagedResults 1 1 (jsTrim "news")).results ++
        (pagedResponse examplePagedResults 2 1 (jsTrim "news")).results =
      examplePagedResults.take (2 * 1) ∧
    ((examplePagedResults.map SearchResult.url).Nodup →
      ∀ x ∈ (pagedResponse examplePagedResults 1 1 (jsTrim "news")).results,
        x ∉ (pagedResponse examplePagedResults 2 1 (jsTrim "news")).results) ∧
    ((collectLoop [] none
        ([] : List (Except ErrorValue (List RawResult)))).1 ≠ [] →
      search "news" 1 1 none [] (fun _ => 0) =
        (.ok (pagedResponse (freshResults [] (fun _ => 0)) 1 1 (jsTrim "news")),
          some (freshResults [] (fun _ => 0)))) :=
  search_cached_pagination "news" 2 1 examplePagedResults [] (fun _ => 0)
    (by decide) (by decide)

/-- C9: for `minDelay ≤ maxDelay` and any draws in `[0, 1)`, the delay
produced by `generateRandomDelay` lies in the closed interval
`[minDelay, maxDelay]` for each of the three distribution types. -/
theorem randomDelay_within_bounds (minDelay maxDelay u1 u2 : ℝ)
    (dist : DistributionType) (h : minDelay ≤ maxDelay)
    (h10 : 0 ≤ u1) (h11 : u1 < 1) (h20 : 0 ≤ u2) (h21 : u2 < 1) :
    minDelay ≤ generateRandomDelay minDelay maxDelay dist u1 u2 ∧
    generateRandomDelay minDelay maxDelay dist u1 u2 ≤ maxDelay := by
  cases dist with
  | uniform =>
      simp only [generateRandomDelay]
      constructor
      · have h1 : 0 ≤ u1 * (maxDelay - minDelay) :=
          mul_nonneg h10 (by linarith)
        linarith
      · have h1 : u1 * (maxDelay - minDelay) ≤ 1 * (maxDelay - minDelay) :=
          mul_le_mul_of_nonneg_right (le_of_lt h11) (by linarith)
        linarith
  | exponential =>
      simp only [generateRandomDelay, exponentialRandom]
      have hlam : 0 ≤ 2 / (maxDelay - minDelay) :=
        div_nonneg (by norm_num) (by linarith)
      have hlog : Real.log (1 - u1) ≤ 0 :=
        Real.log_nonpos (by linarith) (by linarith)
      have hexp : 0 ≤ -Real.log (1 - u1) / (2 / (maxDelay - minDelay)) :=
        div_nonneg (by linarith) hlam
      exact ⟨le_min h (by linarith), min_le_left _ _⟩
  | normal =>
      simp only [generateRandomDelay, normalRandom]
      exact ⟨le_max_left _ _, max_le h (min_le_left _ _)⟩

/-- C9 witness: the bound at `minDelay = 1000`, `maxDelay = 5000` with the
exponential distribution and draws `1/2`, `1/3`. -/
theorem randomDelay_within_bounds_witness :
    (1000 : ℝ) ≤ generateRandomDelay 1000 5000 .exponential (1 / 2) (1 / 3) ∧
    generateRandomDelay 1000 5000 .exponential (1 / 2) (1 / 3) ≤ 5000 :=
  randomDelay_within_bounds 1000 5000 (1 / 2) (1 / 3) .exponential
    (by norm_num) (by norm_num) (by norm_num) (by norm_num) (by norm_num)

/-- C10 witness: a gated dispatch at time 60 against an endpoint that opened
at time 40 with a 50 ms recovery window. -/
theorem gatedDispatch_restarts_recovery_witness :
    (executeRequest ⟨10, 5, 3, 1000, 30000, 20000⟩ ⟨3, 50, 500⟩
        ⟨3, 1, 40, 2, .«open»⟩ ⟨"r9", "https://x", 1, 10, .low⟩ 60 (.ok 7) 0).2 =
      recordFailure ⟨3, 50, 500⟩ ⟨3, 1, 40, 2, .«open»⟩ 60 ∧
    (recordFailure ⟨3, 50, 500⟩ ⟨3, 1, 40, 2, .«open»⟩ 60).failures = 3 + 1 ∧
    (recordFailure ⟨3, 50, 500⟩ ⟨3, 1, 40, 2, .«open»⟩ 60).lastFailureTime = 60 ∧
    (∀ t : Int, t - 60 < (⟨3, 50, 500⟩ : CircuitBreakerConfig).recoveryTimeMs →
      (canExecute ⟨3, 50, 500⟩
        (recordFailure ⟨3, 50, 500⟩ ⟨3, 1, 40, 2, .«open»⟩ 60) t).1 = false) :=
  gatedDispatch_restarts_recovery ⟨10, 5, 3, 1000, 30000, 20000⟩ ⟨3, 50, 500⟩
    ⟨3, 1, 40, 2, .«open»⟩ ⟨"r9", "https://x", 1, 10, .low⟩ 60 (.ok 7) 0
    (by decide)

end NoExplorer
